import Mathlib

/-!
# Verification of the NEST `iaf_freq_sensor` neuron model and the
# `stdp_connection_multi` plasticity rule

Shallow embedding of `src/iaf_freq_sensor.cpp` and
`src/stdp_connection_multi.h`.  C++ `double` arithmetic is modelled by `ℝ`;
the per-step body of `iaf_freq_sensor::update` becomes a state-transition
function, and `STDPConnectionMulti::send`'s history loop becomes a fold over
the list of post-synaptic spike timestamps returned by the (external)
spike-history service.
-/

namespace IafFreqSensor

/-- `iaf_freq_sensor::Parameters_` (iaf_freq_sensor.cpp, lines 63-75).
All voltage-like parameters keep their source meaning: `V_reset_`, `Theta_`
and `LowerBound_` are stored relative to `U0_`. -/
@[ext]
structure Parameters where
  Tau_ : ℝ
  C_ : ℝ
  TauR_ : ℝ
  U0_ : ℝ
  I_e_ : ℝ
  V_reset_ : ℝ
  Theta_ : ℝ
  LowerBound_ : ℝ
  Sigma_ : ℝ
  Ti_ : ℝ
  num_of_receptors_ : ℕ

/-- `iaf_freq_sensor::State_` (iaf_freq_sensor.cpp, lines 77-85).
The refractory counter `r_` is a step count, hence `ℕ`. -/
@[ext]
structure State_ where
  y0_ : ℝ
  y1_ : ℝ
  y2_ : ℝ
  y3_ : ℝ
  currents_ : ℝ
  ti_ : ℝ
  r_ : ℕ

/-- `iaf_freq_sensor::Variables_`: the propagator cache computed by
`calibrate()` (iaf_freq_sensor.cpp, lines 213-241). -/
@[ext]
structure Variables_ where
  P21_ : ℝ
  P22_ : ℝ
  P33_ : ℝ
  P31_ : ℝ
  RefractoryCounts_ : ℕ

/-- The propagator computation of `calibrate()` (iaf_freq_sensor.cpp,
lines 213-240).  `h` is the step size in ms.  The conversion of `TauR_` to
`RefractoryCounts_` goes through the external `nest::Time` class, so the
resulting step count is taken as an argument `refractorySteps`. -/
noncomputable def calibrate (p : Parameters) (h : ℝ) (refractorySteps : ℕ) : Variables_ :=
  { P21_ := 2 / (Real.sqrt (3 * p.Sigma_) * Real.pi ^ ((1 : ℝ)/4) * p.Sigma_)
    P22_ := -(1 / (p.Sigma_ * p.Sigma_))
    P33_ := Real.exp (-h / p.Tau_)
    P31_ := p.Tau_ / p.C_ * (1 - Real.exp (-h / p.Tau_))
    RefractoryCounts_ := refractorySteps }

/-- `iaf_freq_sensor::update_currents_` (iaf_freq_sensor.cpp, lines 248-254),
as a pure function of the state fields it reads (`y0_`, `ti_`) and the query
time `t`; it returns the new value of `S_.currents_`. -/
noncomputable def update_currents_ (p : Parameters) (V : Variables_) (y0 ti t : ℝ) : ℝ :=
  let tt_s := t - ti - p.Ti_ / 2
  let tt := V.P22_ * tt_s * tt_s
  y0 * V.P21_ * (1 + tt) * Real.exp (tt / 2)

/-- The input-draining prologue of one `update` step (iaf_freq_sensor.cpp,
lines 271-289): a receptor-0 value above 0.1 is a type-A event (zero `y1_`,
`y2_`, `currents_`, re-anchor `ti_`); a receptor-1 value above 0.1 is a
type-B event (reset `y3_` to `V_reset_`, set `y1_` to 1). -/
noncomputable def drainSpikes (p : Parameters) (t in0 in1 : ℝ) (s : State_) : State_ :=
  let s1 := if in0 > (0.1 : ℝ) then { s with y1_ := 0, y2_ := 0, currents_ := 0, ti_ := t } else s
  if in1 > (0.1 : ℝ) then { s1 with y3_ := p.V_reset_, y1_ := 1 } else s1

/-- The clamp `x < lb ? lb : x` used for the lower bound on `y1_`, `y2_`,
`y3_` (iaf_freq_sensor.cpp, lines 307-309). -/
noncomputable def lbound (lb x : ℝ) : ℝ :=
  if x < lb then lb else x

/-- The Simpson accumulator `dk` of one non-refractory step
(iaf_freq_sensor.cpp, lines 298-303): the first summand is the *carried-in*
`S_.currents_`; the second and third are `update_currents_` evaluated at
`t + h/2` and `t + h` with this step's `y0_` and `ti_`. -/
noncomputable def simpson_dk (p : Parameters) (V : Variables_) (t h : ℝ) (s : State_) : ℝ :=
  s.currents_ + 4 * update_currents_ p V s.y0_ s.ti_ (t + h / 2)
    + update_currents_ p V s.y0_ s.ti_ (t + h)

/-- The continuous-dynamics part of one `update` step (iaf_freq_sensor.cpp,
lines 292-313): if not refractory, advance `y3_`, `y1_`, `y2_` and clamp
them to `LowerBound_` (the final `currents_` is the last `update_currents_`
evaluation, at `t + h`); otherwise just decrement `r_`. -/
noncomputable def advance (p : Parameters) (V : Variables_) (t h : ℝ) (s : State_) : State_ :=
  if s.r_ = 0 then
    let y3n := V.P33_ * s.y3_ + V.P31_ * s.y1_ * |s.y2_|
    let y1n := V.P33_ * s.y1_
    let y2n := s.y2_ + simpson_dk p V t h s * h / 6
    { s with
      y3_ := lbound p.LowerBound_ y3n
      y2_ := lbound p.LowerBound_ y2n
      y1_ := lbound p.LowerBound_ y1n
      currents_ := update_currents_ p V s.y0_ s.ti_ (t + h) }
  else
    { s with r_ := s.r_ - 1 }

/-- Result of one lag iteration of `update`: the new state and the number of
outgoing spikes sent for that lag (`network()->send` calls). -/
structure StepOut where
  state : State_
  spikes : ℕ

/-- One lag iteration of `iaf_freq_sensor::update` (iaf_freq_sensor.cpp,
lines 268-335): drain receptor events, record `Vm0`, advance (or decrement
the refractory counter), detect a threshold crossing (`Vm0 < Theta_` and
post-update `y3_ ≥ Theta_`, in which case `y3_` is reset to `U0_`, `y2_` and
`y1_` to 0, `r_` is armed to `RefractoryCounts_` and one spike is sent), and
finally load `y0_` from the current accumulator (`cur`).  `t` is the
physical time of step `origin + lag + 1` and `h` the step size. -/
noncomputable def updateStep (p : Parameters) (V : Variables_) (t h in0 in1 cur : ℝ)
    (s : State_) : StepOut :=
  let sd := drainSpikes p t in0 in1 s
  let Vm0 := sd.y3_
  let sa := advance p V t h sd
  if Vm0 < p.Theta_ ∧ p.Theta_ ≤ sa.y3_ then
    { state := { sa with r_ := V.RefractoryCounts_, y3_ := p.U0_, y2_ := 0, y1_ := 0, y0_ := cur }
      spikes := 1 }
  else
    { state := { sa with y0_ := cur }, spikes := 0 }

/-- Per-step external input: the drained receptor-0 and receptor-1
accumulator values and the current-accumulator value for the lag. -/
structure StepIn where
  in0 : ℝ
  in1 : ℝ
  cur : ℝ

/-- A whole `update` block: iterate `updateStep` over a list of per-step
inputs, with the step time advancing by `h` each lag (successive values of
`Time(Time::step(origin+lag+1)).get_ms()` differ by the resolution `h`). -/
noncomputable def run (p : Parameters) (V : Variables_) (h : ℝ) :
    ℝ → State_ → List StepIn → State_
  | _, s, [] => s
  | t, s, i :: rest =>
      run p V h (t + h) (updateStep p V t h i.in0 i.in1 i.cur s).state rest

/-- The four `BadProperty` exceptions `Parameters_::set` can throw
(iaf_freq_sensor.cpp, lines 125-135). -/
inductive BadProperty where
  | capacitance
  | membraneTau
  | integrationTime
  | refractoryTime
deriving DecidableEq

/-- The dictionary read and written by `Parameters_::get`/`set`: one optional
value per key the code touches.  `set` never reads `n_synapses`. -/
structure Dict where
  E_L : Option ℝ
  I_e : Option ℝ
  V_th : Option ℝ
  V_reset : Option ℝ
  V_min : Option ℝ
  C_m : Option ℝ
  tau_m : Option ℝ
  t_ref : Option ℝ
  Sigma : Option ℝ
  Ti : Option ℝ
  n_synapses : Option ℕ

/-- `iaf_freq_sensor::Parameters_::get` (iaf_freq_sensor.cpp, lines 91-104):
`V_th`, `V_reset` and `V_min` are reported shifted by `+U0_`. -/
noncomputable def Parameters_get (p : Parameters) : Dict :=
  { E_L := some p.U0_
    I_e := some p.I_e_
    V_th := some (p.Theta_ + p.U0_)
    V_reset := some (p.V_reset_ + p.U0_)
    V_min := some (p.LowerBound_ + p.U0_)
    C_m := some p.C_
    tau_m := some p.Tau_
    t_ref := some p.TauR_
    Sigma := some p.Sigma_
    Ti := some p.Ti_
    n_synapses := some p.num_of_receptors_ }

/-- The `updateValue` block of `Parameters_::set` (iaf_freq_sensor.cpp,
lines 109-122): every present dictionary entry overwrites the corresponding
field directly — the `V_th`, `V_reset` and `V_min` entries land in the
relative fields `Theta_`, `V_reset_`, `LowerBound_` with no `-U0` shift. -/
noncomputable def set_assign (p : Parameters) (d : Dict) : Parameters :=
  { p with
    U0_ := d.E_L.getD p.U0_
    V_reset_ := d.V_reset.getD p.V_reset_
    Theta_ := d.V_th.getD p.Theta_
    LowerBound_ := d.V_min.getD p.LowerBound_
    I_e_ := d.I_e.getD p.I_e_
    C_ := d.C_m.getD p.C_
    Tau_ := d.tau_m.getD p.Tau_
    TauR_ := d.t_ref.getD p.TauR_
    Sigma_ := d.Sigma.getD p.Sigma_
    Ti_ := d.Ti.getD p.Ti_ }

/-- Result of `Parameters_::set`: the parameter object after the call (the
C++ mutates `this` in place), the exception thrown if any, and the returned
`delta_EL`. -/
structure SetResult where
  params : Parameters
  err : Option BadProperty
  delta_EL : ℝ

/-- `iaf_freq_sensor::Parameters_::set` (iaf_freq_sensor.cpp, lines
106-138): all `updateValue` assignments happen first, then the four
validation checks run in order on the already-assigned fields.  A thrown
`BadProperty` therefore leaves the fields holding the new values. -/
noncomputable def Parameters_set (p : Parameters) (d : Dict) : SetResult :=
  let q := set_assign p d
  let delta := q.U0_ - p.U0_
  if q.C_ ≤ 0 then ⟨q, some .capacitance, delta⟩
  else if q.Tau_ ≤ 0 then ⟨q, some .membraneTau, delta⟩
  else if q.Ti_ ≤ 0 then ⟨q, some .integrationTime, delta⟩
  else if q.TauR_ < 0 then ⟨q, some .refractoryTime, delta⟩
  else ⟨q, none, delta⟩

/-- The Simpson accumulator as the spec describes it: all three quadrature
points are the kernel freshly evaluated with this step's `y0_` and `ti_`,
the first one at the step's start time `t`.  Stated for comparison with
`simpson_dk` (claim C7). -/
noncomputable def simpson_fresh (p : Parameters) (V : Variables_) (t h : ℝ) (s : State_) : ℝ :=
  update_currents_ p V s.y0_ s.ti_ t + 4 * update_currents_ p V s.y0_ s.ti_ (t + h / 2)
    + update_currents_ p V s.y0_ s.ti_ (t + h)

/-- The default parameter set of `Parameters_::Parameters_()`
(iaf_freq_sensor.cpp, lines 63-75), with the one unrepresentable default
`LowerBound_ = -∞` replaced by the admissible finite value `-1000`. -/
noncomputable def pDefault : Parameters :=
  ⟨30, 1, 2, 0, 0, -10, -1, -1000, 30, 50, 2⟩

/-- The propagator cache `calibrate()` computes for `pDefault` at the
standard resolution `h = 0.1` ms (`RefractoryCounts_ = 2 / 0.1 = 20`). -/
noncomputable def vDefault : Variables_ :=
  calibrate pDefault (1/10) 20

/-- `pDefault` with the lower bound raised above the reset level
(`V_min = -5` while `V_reset = -10`), a combination no setter rejects. -/
noncomputable def pLow : Parameters :=
  { pDefault with LowerBound_ := -5 }

/-- `pDefault` with the resting level `U0_` moved strictly below the
threshold `Theta_`. -/
noncomputable def pSub : Parameters :=
  { pDefault with U0_ := -5 }

end IafFreqSensor

namespace StdpConnectionMulti

/-- The per-connection data members of `STDPConnectionMulti`
(stdp_connection_multi.h, lines 136-142). -/
@[ext]
structure SynapseParams where
  Aplus_ : ℝ
  Aneg_ : ℝ
  tplus_ : ℝ
  tneg_ : ℝ
  Wmax_ : ℝ
  Esyn_ : ℝ
  EmitSpk_ : Bool

/-- `STDPConnectionMulti::learn_` (stdp_connection_multi.h, lines 146-170):
potentiation (`dt > 0`) adds `exp(-w)·Aplus·(1-1/tplus)^dt`, depression
adds `-w·Aneg·(1-1/tneg)^(-dt)`; the result is cut to `0` from below and to
`Wmax_` from above.  `std::pow` on reals is modelled by `Real.rpow`. -/
noncomputable def learn_ (c : SynapseParams) (w dt : ℝ) : ℝ :=
  let wd := if 0 < dt then Real.exp (-w) * c.Aplus_ else -w * c.Aneg_
  let td := if 0 < dt then (1 - 1 / c.tplus_) ^ dt else (1 - 1 / c.tneg_) ^ (-dt)
  let nw := w + wd * td
  if nw < 0 then 0 else if c.Wmax_ < nw then c.Wmax_ else nw

/-- The history-replay loop of `STDPConnectionMulti::send`
(stdp_connection_multi.h, lines 229-234): for each post-synaptic timestamp
`t_post` (in the order returned by `get_history`), the weight is replaced by
`learn_(weight, t_lastspike - (t_post + dendritic_delay))`.  The anchor
`t_lastspike` is the same for every entry of the batch. -/
noncomputable def send_loop (c : SynapseParams) (t_lastspike dendritic_delay : ℝ) :
    ℝ → List ℝ → ℝ
  | w, [] => w
  | w, tpost :: rest =>
      send_loop c t_lastspike dendritic_delay
        (learn_ c w (t_lastspike - (tpost + dendritic_delay))) rest

/-- `STDPConnectionMulti::send` (stdp_connection_multi.h, lines 207-244):
run the history loop, then, if `EmitSpk_`, forward a spike whose weight is
the updated weight times `Esyn_`.  The post-synaptic spike history for
`(t_lastspike - delay, t_spike - delay]` is owned by the external
`Archiving_Node` and enters as the list `hist`. -/
noncomputable def send (c : SynapseParams) (t_lastspike dendritic_delay : ℝ)
    (hist : List ℝ) (w : ℝ) : ℝ × Option ℝ :=
  let w2 := send_loop c t_lastspike dendritic_delay w hist
  (w2, if c.EmitSpk_ then some (w2 * c.Esyn_) else none)

/-- The per-entry weight update written the way the spec states it
(§4.2 on-send, step 2): branch on the sign of `dt` and clamp the result into
`[0, Wmax]` with `min`/`max`.  Used to compare the spec's wording with
`learn_`. -/
noncomputable def learnSpec (c : SynapseParams) (w dt : ℝ) : ℝ :=
  if 0 < dt then
    min (max (w + Real.exp (-w) * c.Aplus_ * (1 - 1 / c.tplus_) ^ dt) 0) c.Wmax_
  else
    min (max (w - w * c.Aneg_ * (1 - 1 / c.tneg_) ^ (-dt)) 0) c.Wmax_

/-- The on-send weight-update loop written the way the spec states it:
sequential updates, each entry compared against the same call-level
`t_lastspike` anchor. -/
noncomputable def sendSpec (c : SynapseParams) (t_lastspike dendritic_delay : ℝ) :
    ℝ → List ℝ → ℝ
  | w, [] => w
  | w, tpost :: rest =>
      sendSpec c t_lastspike dendritic_delay
        (learnSpec c w (t_lastspike - (tpost + dendritic_delay))) rest

lemma learn_mem (c : SynapseParams) (w dt : ℝ) (hW : 0 ≤ c.Wmax_) :
    0 ≤ learn_ c w dt ∧ learn_ c w dt ≤ c.Wmax_ := by
  simp only [learn_]
  split_ifs <;> constructor <;> linarith

lemma send_loop_mem (c : SynapseParams) (tl dd : ℝ) (hW : 0 ≤ c.Wmax_) :
    ∀ (hist : List ℝ) (w : ℝ), 0 ≤ w → w ≤ c.Wmax_ →
      0 ≤ send_loop c tl dd w hist ∧ send_loop c tl dd w hist ≤ c.Wmax_ := by
  intro hist
  induction hist with
  | nil =>
    intro w h0 h1
    simpa [send_loop] using ⟨h0, h1⟩
  | cons a rest ih =>
    intro w h0 h1
    rw [send_loop]
    exact ih _ (learn_mem c w _ hW).1 (learn_mem c w _ hW).2

lemma send_loop_mem_of_ne_nil (c : SynapseParams) (tl dd : ℝ) (hW : 0 ≤ c.Wmax_)
    (hist : List ℝ) (hne : hist ≠ []) (w : ℝ) :
    0 ≤ send_loop c tl dd w hist ∧ send_loop c tl dd w hist ≤ c.Wmax_ := by
  match hist with
  | [] => exact absurd rfl hne
  | a :: rest =>
    rw [send_loop]
    exact send_loop_mem c tl dd hW rest _ (learn_mem c w _ hW).1 (learn_mem c w _ hW).2

/-- C5: for all inputs `w`, `dt` and all parameters with `Wmax_ ≥ 0`,
`learn_` returns a value in `[0, Wmax_]`; consequently after every
sequential weight update inside `send` (i.e., after any nonempty prefix of
the history replay), the connection weight lies in `[0, Wmax_]`. -/
theorem learn_weight_bounds (c : SynapseParams) (hW : 0 ≤ c.Wmax_)
    (w dt t_lastspike dendritic_delay : ℝ) (hist : List ℝ) (hne : hist ≠ []) :
    (0 ≤ learn_ c w dt ∧ learn_ c w dt ≤ c.Wmax_) ∧
      (0 ≤ send_loop c t_lastspike dendritic_delay w hist ∧
        send_loop c t_lastspike dendritic_delay w hist ≤ c.Wmax_) :=
  ⟨learn_mem c w dt hW, send_loop_mem_of_ne_nil c t_lastspike dendritic_delay hW hist hne w⟩

/-- Witness for `learn_weight_bounds`: a concrete synapse with `Wmax_ = 1`,
a starting weight outside the band and a one-entry history. -/
theorem learn_weight_bounds_witness :
    (0 ≤ (SynapseParams.mk 1 1 20 20 1 1 false).Wmax_ ∧ ([2] : List ℝ) ≠ []) ∧
      ((0 ≤ learn_ (SynapseParams.mk 1 1 20 20 1 1 false) 5 (-3) ∧
          learn_ (SynapseParams.mk 1 1 20 20 1 1 false) 5 (-3) ≤
            (SynapseParams.mk 1 1 20 20 1 1 false).Wmax_) ∧
        (0 ≤ send_loop (SynapseParams.mk 1 1 20 20 1 1 false) 3 1 5 [2] ∧
          send_loop (SynapseParams.mk 1 1 20 20 1 1 false) 3 1 5 [2] ≤
            (SynapseParams.mk 1 1 20 20 1 1 false).Wmax_)) :=
  ⟨⟨by norm_num, by simp⟩,
    learn_weight_bounds (SynapseParams.mk 1 1 20 20 1 1 false) (by norm_num)
      5 (-3) 3 1 [2] (by simp)⟩

lemma clamp_eq_min_max (W nw : ℝ) (hW : 0 ≤ W) :
    (if nw < 0 then (0 : ℝ) else if W < nw then W else nw) = min (max nw 0) W := by
  split_ifs with h1 h2
  · rw [max_eq_right h1.le, min_eq_left hW]
  · rw [max_eq_left (not_lt.mp h1), min_eq_right h2.le]
  · rw [max_eq_left (not_lt.mp h1), min_eq_left (not_lt.mp h2)]

lemma learn_eq_learnSpec (c : SynapseParams) (hW : 0 ≤ c.Wmax_) (w dt : ℝ) :
    learn_ c w dt = learnSpec c w dt := by
  simp only [learn_, learnSpec]
  by_cases h : 0 < dt
  · simp only [if_pos h]
    rw [clamp_eq_min_max _ _ hW]
  · simp only [if_neg h]
    rw [clamp_eq_min_max _ _ hW]
    ring_nf

/-- C6: the history-replay loop of `send` refines the spec's description:
each history timestamp is compared against the same call-level `t_lastspike`
anchor, and the weight is updated sequentially with the spec's potentiation
and depression formulas clamped into `[0, Wmax]`. -/
theorem send_loop_refines_spec (c : SynapseParams) (hW : 0 ≤ c.Wmax_)
    (t_lastspike dendritic_delay : ℝ) (hist : List ℝ) (w : ℝ) :
    send_loop c t_lastspike dendritic_delay w hist =
      sendSpec c t_lastspike dendritic_delay w hist := by
  induction hist generalizing w with
  | nil => rw [send_loop, sendSpec]
  | cons a rest ih =>
    rw [send_loop, sendSpec, learn_eq_learnSpec c hW]
    exact ih _

/-- Witness for `send_loop_refines_spec`: concrete parameters and a
two-entry history. -/
theorem send_loop_refines_spec_witness :
    (0 ≤ (SynapseParams.mk 1 1 20 20 1 1 false).Wmax_) ∧
      send_loop (SynapseParams.mk 1 1 20 20 1 1 false) 3 1 (1/2) [1, 4] =
        sendSpec (SynapseParams.mk 1 1 20 20 1 1 false) 3 1 (1/2) [1, 4] :=
  ⟨by norm_num,
    send_loop_refines_spec (SynapseParams.mk 1 1 20 20 1 1 false) (by norm_num) 3 1 [1, 4] (1/2)⟩

/-- C9 counterexample: with `Aplus_ = -1` (a parameter value no setter
rejects and no spec invariant excludes), a single potentiation update with
`dt = 1 > 0` strictly decreases a weight lying inside `[0, Wmax_]`, so the
iterated sequence is not non-decreasing. -/
theorem learn_not_monotone_negative_Aplus :
    learn_ (SynapseParams.mk (-1) 1 2 2 1 1 false) (1/2) 1 < 1/2 := by
  have he2 : (0 : ℝ) < Real.exp (-(1/2 : ℝ)) := Real.exp_pos _
  rw [learn_eq_learnSpec _ (by norm_num) _ _]
  simp only [learnSpec]
  rw [if_pos (by norm_num : (0 : ℝ) < 1)]
  refine lt_of_le_of_lt (min_le_left _ _) (max_lt ?_ (by norm_num))
  rw [Real.rpow_one]
  nlinarith

lemma learn_pot_step (c : SynapseParams) (w dt : ℝ) (hA : 0 ≤ c.Aplus_)
    (hp : 1 ≤ c.tplus_) (hdt : 0 < dt) (h0 : 0 ≤ w) (h1 : w ≤ c.Wmax_) :
    w ≤ learn_ c w dt ∧ learn_ c w dt ≤ c.Wmax_ := by
  have htp : (0 : ℝ) < c.tplus_ := lt_of_lt_of_le one_pos hp
  have hbase : 0 ≤ 1 - 1 / c.tplus_ := by
    have : 1 / c.tplus_ ≤ 1 := by
      rw [div_le_one htp]
      exact hp
    linarith
  have htd : 0 ≤ (1 - 1 / c.tplus_) ^ dt := Real.rpow_nonneg hbase dt
  have hstep : 0 ≤ Real.exp (-w) * c.Aplus_ * ((1 - 1 / c.tplus_) ^ dt) :=
    mul_nonneg (mul_nonneg (Real.exp_pos _).le hA) htd
  simp only [learn_, if_pos hdt]
  split_ifs <;> constructor <;> linarith

lemma learn_dep_step (c : SynapseParams) (w dt : ℝ) (hN : 0 ≤ c.Aneg_)
    (hn : 1 ≤ c.tneg_) (hdt : dt < 0) (h0 : 0 ≤ w) (h1 : w ≤ c.Wmax_) :
    learn_ c w dt ≤ w ∧ 0 ≤ learn_ c w dt := by
  have htn : (0 : ℝ) < c.tneg_ := lt_of_lt_of_le one_pos hn
  have hbase : 0 ≤ 1 - 1 / c.tneg_ := by
    have : 1 / c.tneg_ ≤ 1 := by
      rw [div_le_one htn]
      exact hn
    linarith
  have htd : 0 ≤ (1 - 1 / c.tneg_) ^ (-dt) := Real.rpow_nonneg hbase (-dt)
  have hstep : -w * c.Aneg_ * ((1 - 1 / c.tneg_) ^ (-dt)) ≤ 0 := by
    have hwA : 0 ≤ w * c.Aneg_ := mul_nonneg h0 hN
    have : -w * c.Aneg_ ≤ 0 := by nlinarith
    exact mul_nonpos_of_nonpos_of_nonneg this htd
  simp only [learn_, if_neg (not_lt.mpr hdt.le)]
  split_ifs <;> constructor <;> linarith

/-- C9 amended: under the sign constraints the rule needs (`Aplus_ ≥ 0`,
`Aneg_ ≥ 0`, `tplus_ ≥ 1`, `tneg_ ≥ 1`, `Wmax_ ≥ 0`), repeated application
of `learn_` with a fixed `dt > 0` from a weight in `[0, Wmax_]` yields a
non-decreasing sequence bounded above by `Wmax_`, and with a fixed `dt < 0`
a non-increasing sequence bounded below by 0. -/
theorem learn_iterates_monotone (c : SynapseParams) (w dt : ℝ)
    (hA : 0 ≤ c.Aplus_) (hN : 0 ≤ c.Aneg_) (hp : 1 ≤ c.tplus_) (hn : 1 ≤ c.tneg_)
    (hW : 0 ≤ c.Wmax_) (hw0 : 0 ≤ w) (hw1 : w ≤ c.Wmax_) :
    (0 < dt → ∀ n : ℕ,
      (fun x => learn_ c x dt)^[n] w ≤ (fun x => learn_ c x dt)^[n + 1] w ∧
        (fun x => learn_ c x dt)^[n] w ≤ c.Wmax_) ∧
    (dt < 0 → ∀ n : ℕ,
      (fun x => learn_ c x dt)^[n + 1] w ≤ (fun x => learn_ c x dt)^[n] w ∧
        0 ≤ (fun x => learn_ c x dt)^[n] w) := by
  have inv : ∀ n : ℕ, 0 ≤ (fun x => learn_ c x dt)^[n] w ∧
      (fun x => learn_ c x dt)^[n] w ≤ c.Wmax_ := by
    intro n
    induction n with
    | zero => exact ⟨hw0, hw1⟩
    | succ k ih =>
      rw [Function.iterate_succ_apply']
      exact learn_mem c _ dt hW
  constructor
  · intro hdt n
    rw [Function.iterate_succ_apply']
    exact ⟨(learn_pot_step c _ dt hA hp hdt (inv n).1 (inv n).2).1, (inv n).2⟩
  · intro hdt n
    rw [Function.iterate_succ_apply']
    exact ⟨(learn_dep_step c _ dt hN hn hdt (inv n).1 (inv n).2).1, (inv n).1⟩

end StdpConnectionMulti

namespace IafFreqSensor

lemma drainSpikes_r (p : Parameters) (t in0 in1 : ℝ) (s : State_) :
    (drainSpikes p t in0 in1 s).r_ = s.r_ := by
  simp only [drainSpikes]
  split_ifs <;> rfl

lemma lbound_le (lb x : ℝ) : lb ≤ lbound lb x := by
  simp only [lbound]
  split_ifs with hc
  · exact le_refl lb
  · exact not_lt.mp hc

/-- C8: a refractory step (`r_ > 0`) in which neither receptor event fires
leaves `y1_`, `y2_`, `y3_`, `currents_` and `ti_` unchanged, decrements
`r_` by exactly 1, loads `y0_` from the current accumulator, and emits no
spike. -/
theorem iaf_refractory_frame (p : Parameters) (V : Variables_) (t h in0 in1 cur : ℝ)
    (s : State_) (hi0 : in0 ≤ (0.1 : ℝ)) (hi1 : in1 ≤ (0.1 : ℝ)) (hr : s.r_ ≠ 0) :
    (updateStep p V t h in0 in1 cur s).state.y1_ = s.y1_ ∧
      (updateStep p V t h in0 in1 cur s).state.y2_ = s.y2_ ∧
      (updateStep p V t h in0 in1 cur s).state.y3_ = s.y3_ ∧
      (updateStep p V t h in0 in1 cur s).state.currents_ = s.currents_ ∧
      (updateStep p V t h in0 in1 cur s).state.ti_ = s.ti_ ∧
      (updateStep p V t h in0 in1 cur s).state.r_ = s.r_ - 1 ∧
      (updateStep p V t h in0 in1 cur s).state.y0_ = cur ∧
      (updateStep p V t h in0 in1 cur s).spikes = 0 := by
  have hd : drainSpikes p t in0 in1 s = s := by
    simp only [drainSpikes]
    rw [if_neg (not_lt.mpr hi0), if_neg (not_lt.mpr hi1)]
  have ha : advance p V t h s = { s with r_ := s.r_ - 1 } := by
    simp only [advance]
    rw [if_neg hr]
  have hcond : ¬(s.y3_ < p.Theta_ ∧ p.Theta_ ≤ s.y3_) :=
    fun hc => absurd hc.1 (not_lt.mpr hc.2)
  simp only [updateStep, hd, ha]
  rw [if_neg hcond]
  exact ⟨rfl, rfl, rfl, rfl, rfl, rfl, rfl, rfl⟩

/-- Witness for `iaf_refractory_frame`: a refractory state with `r_ = 2`
and no receptor input. -/
theorem iaf_refractory_frame_witness :
    ((0 : ℝ) ≤ (0.1 : ℝ) ∧ (State_.mk 0 0 0 5 0 0 2).r_ ≠ 0) ∧
      ((updateStep pDefault vDefault 0 (1/10) 0 0 3 (State_.mk 0 0 0 5 0 0 2)).state.y1_ =
          (State_.mk 0 0 0 5 0 0 2).y1_ ∧
        (updateStep pDefault vDefault 0 (1/10) 0 0 3 (State_.mk 0 0 0 5 0 0 2)).state.y2_ =
          (State_.mk 0 0 0 5 0 0 2).y2_ ∧
        (updateStep pDefault vDefault 0 (1/10) 0 0 3 (State_.mk 0 0 0 5 0 0 2)).state.y3_ =
          (State_.mk 0 0 0 5 0 0 2).y3_ ∧
        (updateStep pDefault vDefault 0 (1/10) 0 0 3 (State_.mk 0 0 0 5 0 0 2)).state.currents_ =
          (State_.mk 0 0 0 5 0 0 2).currents_ ∧
        (updateStep pDefault vDefault 0 (1/10) 0 0 3 (State_.mk 0 0 0 5 0 0 2)).state.ti_ =
          (State_.mk 0 0 0 5 0 0 2).ti_ ∧
        (updateStep pDefault vDefault 0 (1/10) 0 0 3 (State_.mk 0 0 0 5 0 0 2)).state.r_ =
          (State_.mk 0 0 0 5 0 0 2).r_ - 1 ∧
        (updateStep pDefault vDefault 0 (1/10) 0 0 3 (State_.mk 0 0 0 5 0 0 2)).state.y0_ = 3 ∧
        (updateStep pDefault vDefault 0 (1/10) 0 0 3 (State_.mk 0 0 0 5 0 0 2)).spikes = 0) :=
  ⟨⟨by norm_num, by norm_num⟩,
    iaf_refractory_frame pDefault vDefault 0 (1/10) 0 0 3 (State_.mk 0 0 0 5 0 0 2)
      (by norm_num) (by norm_num) (by norm_num)⟩

/-- C4: in every step, if the pre-update potential `Vm0` (recorded after
the event drain) is below `Theta_` and the post-update `y3_` reaches
`Theta_`, the step resets `y3_` to `U0_`, `y2_` and `y1_` to 0, arms
`r_ = RefractoryCounts_` and emits exactly one spike; otherwise it performs
no reset and emits no spike. -/
theorem iaf_crossing_reset_spike (p : Parameters) (V : Variables_)
    (t h in0 in1 cur : ℝ) (s : State_) :
    ((drainSpikes p t in0 in1 s).y3_ < p.Theta_ ∧
        p.Theta_ ≤ (advance p V t h (drainSpikes p t in0 in1 s)).y3_ →
      (updateStep p V t h in0 in1 cur s).state.y3_ = p.U0_ ∧
        (updateStep p V t h in0 in1 cur s).state.y2_ = 0 ∧
        (updateStep p V t h in0 in1 cur s).state.y1_ = 0 ∧
        (updateStep p V t h in0 in1 cur s).state.r_ = V.RefractoryCounts_ ∧
        (updateStep p V t h in0 in1 cur s).spikes = 1) ∧
    (¬((drainSpikes p t in0 in1 s).y3_ < p.Theta_ ∧
        p.Theta_ ≤ (advance p V t h (drainSpikes p t in0 in1 s)).y3_) →
      (updateStep p V t h in0 in1 cur s).spikes = 0 ∧
        (updateStep p V t h in0 in1 cur s).state.y3_ =
          (advance p V t h (drainSpikes p t in0 in1 s)).y3_ ∧
        (updateStep p V t h in0 in1 cur s).state.y2_ =
          (advance p V t h (drainSpikes p t in0 in1 s)).y2_ ∧
        (updateStep p V t h in0 in1 cur s).state.y1_ =
          (advance p V t h (drainSpikes p t in0 in1 s)).y1_ ∧
        (updateStep p V t h in0 in1 cur s).state.r_ =
          (advance p V t h (drainSpikes p t in0 in1 s)).r_) := by
  constructor
  · intro hc
    simp only [updateStep]
    rw [if_pos hc]
    exact ⟨rfl, rfl, rfl, rfl, rfl⟩
  · intro hc
    simp only [updateStep]
    rw [if_neg hc]
    exact ⟨rfl, rfl, rfl, rfl, rfl⟩

/-- Witness for `iaf_crossing_reset_spike`: a concrete crossing step
(`Vm0 = -2 < Theta = -1`, post-update `y3 = 0 ≥ Theta`) with
`RefractoryCounts_ = 7`. -/
theorem iaf_crossing_reset_spike_witness :
    ((drainSpikes pSub 0 0 0 (State_.mk 0 0 0 (-2) 0 0 0)).y3_ < pSub.Theta_ ∧
        pSub.Theta_ ≤ (advance pSub (Variables_.mk 0 0 0 0 7) 0 (1/10)
          (drainSpikes pSub 0 0 0 (State_.mk 0 0 0 (-2) 0 0 0))).y3_) ∧
      ((updateStep pSub (Variables_.mk 0 0 0 0 7) 0 (1/10) 0 0 0
          (State_.mk 0 0 0 (-2) 0 0 0)).state.y3_ = pSub.U0_ ∧
        (updateStep pSub (Variables_.mk 0 0 0 0 7) 0 (1/10) 0 0 0
          (State_.mk 0 0 0 (-2) 0 0 0)).state.y2_ = 0 ∧
        (updateStep pSub (Variables_.mk 0 0 0 0 7) 0 (1/10) 0 0 0
          (State_.mk 0 0 0 (-2) 0 0 0)).state.y1_ = 0 ∧
        (updateStep pSub (Variables_.mk 0 0 0 0 7) 0 (1/10) 0 0 0
          (State_.mk 0 0 0 (-2) 0 0 0)).state.r_ = (Variables_.mk 0 0 0 0 7).RefractoryCounts_ ∧
        (updateStep pSub (Variables_.mk 0 0 0 0 7) 0 (1/10) 0 0 0
          (State_.mk 0 0 0 (-2) 0 0 0)).spikes = 1) := by
  have hc : (drainSpikes pSub 0 0 0 (State_.mk 0 0 0 (-2) 0 0 0)).y3_ < pSub.Theta_ ∧
      pSub.Theta_ ≤ (advance pSub (Variables_.mk 0 0 0 0 7) 0 (1/10)
        (drainSpikes pSub 0 0 0 (State_.mk 0 0 0 (-2) 0 0 0))).y3_ := by
    norm_num [drainSpikes, advance, lbound, simpson_dk, update_currents_, pSub, pDefault]
  exact ⟨hc, (iaf_crossing_reset_spike pSub (Variables_.mk 0 0 0 0 7) 0 (1/10) 0 0 0
    (State_.mk 0 0 0 (-2) 0 0 0)).1 hc⟩

end IafFreqSensor

namespace StdpConnectionMulti

/-- Witness for `learn_iterates_monotone`: the spec's §8 scenario synapse
(`Aplus = Aneg = 1`, `tplus = tneg = 20`, `Wmax = 1`) at `w = 1/2`. -/
theorem learn_iterates_monotone_witness :
    (0 ≤ (SynapseParams.mk 1 1 20 20 1 1 false).Aplus_ ∧
      0 ≤ (SynapseParams.mk 1 1 20 20 1 1 false).Aneg_ ∧
      1 ≤ (SynapseParams.mk 1 1 20 20 1 1 false).tplus_ ∧
      1 ≤ (SynapseParams.mk 1 1 20 20 1 1 false).tneg_ ∧
      0 ≤ (SynapseParams.mk 1 1 20 20 1 1 false).Wmax_ ∧
      0 ≤ (1/2 : ℝ) ∧ (1/2 : ℝ) ≤ (SynapseParams.mk 1 1 20 20 1 1 false).Wmax_) ∧
    ((0 < (5 : ℝ) → ∀ n : ℕ,
        (fun x => learn_ (SynapseParams.mk 1 1 20 20 1 1 false) x 5)^[n] (1/2) ≤
          (fun x => learn_ (SynapseParams.mk 1 1 20 20 1 1 false) x 5)^[n + 1] (1/2) ∧
          (fun x => learn_ (SynapseParams.mk 1 1 20 20 1 1 false) x 5)^[n] (1/2) ≤
            (SynapseParams.mk 1 1 20 20 1 1 false).Wmax_) ∧
      ((5 : ℝ) < 0 → ∀ n : ℕ,
        (fun x => learn_ (SynapseParams.mk 1 1 20 20 1 1 false) x 5)^[n + 1] (1/2) ≤
          (fun x => learn_ (SynapseParams.mk 1 1 20 20 1 1 false) x 5)^[n] (1/2) ∧
          0 ≤ (fun x => learn_ (SynapseParams.mk 1 1 20 20 1 1 false) x 5)^[n] (1/2))) :=
  ⟨by norm_num,
    learn_iterates_monotone (SynapseParams.mk 1 1 20 20 1 1 false) (1/2) 5
      (by norm_num) (by norm_num) (by norm_num) (by norm_num) (by norm_num)
      (by norm_num) (by norm_num)⟩

end StdpConnectionMulti

namespace IafFreqSensor

/-- C1 counterexample: with the default parameters (`Theta_ = -1` relative
to `U0_ = 0`), an admissible first step from the all-zero state ends with
`y3_ = 0`, strictly above `Theta_`: a supra-threshold `y3_` is observable
at a step boundary. -/
theorem iaf_y3_above_theta_at_boundary :
    (updateStep pDefault vDefault (1/10) (1/10) 0 0 0
      (State_.mk 0 0 0 0 0 0 0)).state.y3_ > pDefault.Theta_ := by
  norm_num [updateStep, drainSpikes, advance, lbound, simpson_dk, update_currents_,
    pDefault, vDefault, calibrate]

lemma drainSpikes_y3_lt (p : Parameters) (t in0 in1 : ℝ) (s : State_)
    (hV : p.V_reset_ < p.Theta_) (hy : s.y3_ < p.Theta_) :
    (drainSpikes p t in0 in1 s).y3_ < p.Theta_ := by
  simp only [drainSpikes]
  split_ifs
  · exact hV
  · exact hV
  · exact hy
  · exact hy

lemma updateStep_y3_lt (p : Parameters) (V : Variables_) (t h in0 in1 cur : ℝ)
    (s : State_) (hU : p.U0_ < p.Theta_) (hV : p.V_reset_ < p.Theta_)
    (hy : s.y3_ < p.Theta_) :
    (updateStep p V t h in0 in1 cur s).state.y3_ < p.Theta_ := by
  have hd := drainSpikes_y3_lt p t in0 in1 s hV hy
  simp only [updateStep]
  by_cases hc : (drainSpikes p t in0 in1 s).y3_ < p.Theta_ ∧
      p.Theta_ ≤ (advance p V t h (drainSpikes p t in0 in1 s)).y3_
  · rw [if_pos hc]
    exact hU
  · rw [if_neg hc]
    exact not_le.mp (not_and.mp hc hd)

/-- C1 amended: provided the reset level `U0_` and the event reset level
`V_reset_` are both strictly below `Theta_`, a run started with
`y3_ < Theta_` keeps `y3_ < Theta_` at every step boundary (a crossing
within a step is reset to `U0_` in the same step).  Without
`U0_ < Theta_` — in particular with the defaults, where `U0_ = 0 > Theta_`
— the bound fails. -/
theorem iaf_subthreshold_invariant (p : Parameters) (V : Variables_) (h : ℝ)
    (hU : p.U0_ < p.Theta_) (hV : p.V_reset_ < p.Theta_) :
    ∀ (ins : List StepIn) (t : ℝ) (s : State_), s.y3_ < p.Theta_ →
      (run p V h t s ins).y3_ < p.Theta_ := by
  intro ins
  induction ins with
  | nil =>
    intro t s hy
    simpa [run] using hy
  | cons i rest ih =>
    intro t s hy
    rw [run]
    exact ih _ _ (updateStep_y3_lt p V t h i.in0 i.in1 i.cur s hU hV hy)

/-- Witness for `iaf_subthreshold_invariant`: `U0 = -5`, `V_reset = -10`,
`Theta = -1`, one input-free step from `y3 = -2`. -/
theorem iaf_subthreshold_invariant_witness :
    (pSub.U0_ < pSub.Theta_ ∧ pSub.V_reset_ < pSub.Theta_ ∧
        (State_.mk 0 0 0 (-2) 0 0 0).y3_ < pSub.Theta_) ∧
      (run pSub vDefault (1/10) 0 (State_.mk 0 0 0 (-2) 0 0 0)
        [StepIn.mk 0 0 0]).y3_ < pSub.Theta_ :=
  ⟨⟨by norm_num [pSub, pDefault], by norm_num [pSub, pDefault], by norm_num [pSub, pDefault]⟩,
    iaf_subthreshold_invariant pSub vDefault (1/10)
      (by norm_num [pSub, pDefault]) (by norm_num [pSub, pDefault])
      [StepIn.mk 0 0 0] 0 (State_.mk 0 0 0 (-2) 0 0 0)
      (by norm_num [pSub, pDefault])⟩

/-- C2 counterexample: with `V_min = -5` above `V_reset = -10` (a
combination `set` accepts), a type-B event drained during a refractory step
(`r_ = 1`) leaves `y3_ = V_reset_ = -10 < LowerBound_ = -5` at the step
boundary: the refractory path never clamps. -/
theorem iaf_lowerbound_violated_refractory :
    (updateStep pLow vDefault (1/10) (1/10) 0 1 0
      (State_.mk 0 0 0 0 0 0 1)).state.y3_ < pLow.LowerBound_ := by
  norm_num [updateStep, drainSpikes, advance, lbound, simpson_dk, update_currents_,
    pLow, pDefault, vDefault, calibrate]

/-- C2 amended: after every *non-refractory* step in which no threshold
crossing fires, `y1_`, `y2_` and `y3_` all sit at or above `LowerBound_`
(the `r_ = 0` branch clamps all three; the refractory branch and the
crossing reset do not). -/
theorem iaf_lowerbound_after_nonrefractory_step (p : Parameters) (V : Variables_)
    (t h in0 in1 cur : ℝ) (s : State_) (hr : s.r_ = 0)
    (hnc : ¬((drainSpikes p t in0 in1 s).y3_ < p.Theta_ ∧
      p.Theta_ ≤ (advance p V t h (drainSpikes p t in0 in1 s)).y3_)) :
    p.LowerBound_ ≤ (updateStep p V t h in0 in1 cur s).state.y1_ ∧
      p.LowerBound_ ≤ (updateStep p V t h in0 in1 cur s).state.y2_ ∧
      p.LowerBound_ ≤ (updateStep p V t h in0 in1 cur s).state.y3_ := by
  have hrd : (drainSpikes p t in0 in1 s).r_ = 0 := (drainSpikes_r p t in0 in1 s).trans hr
  simp only [updateStep]
  rw [if_neg hnc]
  simp only [advance]
  rw [if_pos hrd]
  exact ⟨lbound_le _ _, lbound_le _ _, lbound_le _ _⟩

/-- Witness for `iaf_lowerbound_after_nonrefractory_step`: a non-refractory
input-free step from the all-zero state under the default parameters. -/
theorem iaf_lowerbound_after_nonrefractory_step_witness :
    ((State_.mk 0 0 0 0 0 0 0).r_ = 0 ∧
        ¬((drainSpikes pDefault (1/10) 0 0 (State_.mk 0 0 0 0 0 0 0)).y3_ < pDefault.Theta_ ∧
          pDefault.Theta_ ≤ (advance pDefault vDefault (1/10) (1/10)
            (drainSpikes pDefault (1/10) 0 0 (State_.mk 0 0 0 0 0 0 0))).y3_)) ∧
      (pDefault.LowerBound_ ≤ (updateStep pDefault vDefault (1/10) (1/10) 0 0 0
          (State_.mk 0 0 0 0 0 0 0)).state.y1_ ∧
        pDefault.LowerBound_ ≤ (updateStep pDefault vDefault (1/10) (1/10) 0 0 0
          (State_.mk 0 0 0 0 0 0 0)).state.y2_ ∧
        pDefault.LowerBound_ ≤ (updateStep pDefault vDefault (1/10) (1/10) 0 0 0
          (State_.mk 0 0 0 0 0 0 0)).state.y3_) := by
  have hnc : ¬((drainSpikes pDefault (1/10) 0 0 (State_.mk 0 0 0 0 0 0 0)).y3_ < pDefault.Theta_ ∧
      pDefault.Theta_ ≤ (advance pDefault vDefault (1/10) (1/10)
        (drainSpikes pDefault (1/10) 0 0 (State_.mk 0 0 0 0 0 0 0))).y3_) := by
    intro hcontra
    have h1 := hcontra.1
    norm_num [drainSpikes, pDefault] at h1
  exact ⟨⟨rfl, hnc⟩,
    iaf_lowerbound_after_nonrefractory_step pDefault vDefault (1/10) (1/10) 0 0 0
      (State_.mk 0 0 0 0 0 0 0) rfl hnc⟩

end IafFreqSensor

namespace IafFreqSensor

lemma update_currents_pos (p : Parameters) (V : Variables_) (y0 ti t : ℝ)
    (hy0 : 0 < y0) (hP : 0 < V.P21_)
    (htt : 0 < 1 + V.P22_ * (t - ti - p.Ti_ / 2) * (t - ti - p.Ti_ / 2)) :
    0 < update_currents_ p V y0 ti t := by
  simp only [update_currents_]
  exact mul_pos (mul_pos (mul_pos hy0 hP) htt) (Real.exp_pos _)

lemma vDefault_P21_pos : 0 < vDefault.P21_ := by
  simp only [vDefault, pDefault, calibrate]
  have h1 : (0 : ℝ) < Real.sqrt (3 * 30) := Real.sqrt_pos.mpr (by norm_num)
  have h2 : (0 : ℝ) < Real.pi ^ ((1 : ℝ)/4) := Real.rpow_pos_of_pos Real.pi_pos _
  exact div_pos (by norm_num) (mul_pos (mul_pos h1 h2) (by norm_num))

/-- C7 counterexample: in a step whose carried-in `currents_` is 0 but whose
kernel value at the step start `t` is the nonzero `P21_` (state `y0_ = 1`,
`ti_ = -25`, `t = 0`, so the kernel bump is centered exactly at `t`), the
`y2_` produced by `advance` differs from the value the claim's fresh
three-point Simpson rule (`simpson_fresh`) would give. -/
theorem simpson_first_summand_stale :
    (advance pDefault vDefault 0 (1/10) (State_.mk 1 0 0 0 0 (-25) 0)).y2_ ≠
      lbound pDefault.LowerBound_
        ((State_.mk 1 0 0 0 0 (-25) 0).y2_ +
          simpson_fresh pDefault vDefault 0 (1/10) (State_.mk 1 0 0 0 0 (-25) 0) * (1/10) / 6) := by
  have hP := vDefault_P21_pos
  have hk1 : update_currents_ pDefault vDefault 1 (-25) 0 = vDefault.P21_ := by
    simp only [update_currents_, pDefault]
    norm_num [Real.exp_zero]
  have hk2 : 0 < update_currents_ pDefault vDefault 1 (-25) (0 + (1/10)/2) := by
    apply update_currents_pos
    · norm_num
    · exact hP
    · simp only [vDefault, pDefault, calibrate]
      norm_num
  have hk3 : 0 < update_currents_ pDefault vDefault 1 (-25) (0 + 1/10) := by
    apply update_currents_pos
    · norm_num
    · exact hP
    · simp only [vDefault, pDefault, calibrate]
      norm_num
  simp only [advance]
  rw [if_pos True.intro]
  simp only [simpson_dk, simpson_fresh]
  rw [hk1]
  rw [show pDefault.LowerBound_ = -1000 from rfl]
  simp only [lbound]
  rw [if_neg (by rw [not_lt]; linarith [hk2, hk3]),
    if_neg (by rw [not_lt]; linarith [hP, hk2, hk3])]
  intro heq
  linarith [hP]

/-- C7 amended: in a non-refractory step, the increment added to `y2_`
(before the lower-bound clamp) is `(c₀ + 4·k(t+h/2) + k(t+h))·h/6`, where
`c₀` is the `currents_` value carried into the step — the previous step's
kernel evaluation at its own `t+h` (or 0 after initialization or a type-A
event) — not a fresh evaluation of the kernel at `t`; the step leaves
`currents_` holding the kernel value at `t+h`, which becomes the next
step's first summand. -/
theorem simpson_increment_uses_carried_currents (p : Parameters) (V : Variables_)
    (t h : ℝ) (s : State_) (hr : s.r_ = 0) :
    (advance p V t h s).y2_ =
        lbound p.LowerBound_ (s.y2_ + simpson_dk p V t h s * h / 6) ∧
      (advance p V t h s).currents_ = update_currents_ p V s.y0_ s.ti_ (t + h) := by
  simp only [advance]
  rw [if_pos hr]
  exact ⟨rfl, rfl⟩

/-- Witness for `simpson_increment_uses_carried_currents`: a non-refractory
state carrying `currents_ = 6`. -/
theorem simpson_increment_uses_carried_currents_witness :
    ((State_.mk 0 0 0 0 6 0 0).r_ = 0) ∧
      ((advance pDefault vDefault 0 1 (State_.mk 0 0 0 0 6 0 0)).y2_ =
          lbound pDefault.LowerBound_ ((State_.mk 0 0 0 0 6 0 0).y2_ +
            simpson_dk pDefault vDefault 0 1 (State_.mk 0 0 0 0 6 0 0) * 1 / 6) ∧
        (advance pDefault vDefault 0 1 (State_.mk 0 0 0 0 6 0 0)).currents_ =
          update_currents_ pDefault vDefault (State_.mk 0 0 0 0 6 0 0).y0_
            (State_.mk 0 0 0 0 6 0 0).ti_ (0 + 1)) :=
  ⟨rfl, simpson_increment_uses_carried_currents pDefault vDefault 0 1
    (State_.mk 0 0 0 0 6 0 0) rfl⟩

/-- C3 amended: `Parameters_::set` raises exactly when the *resulting*
`C_ ≤ 0`, `Tau_ ≤ 0`, `Ti_ ≤ 0` or `TauR_ < 0`; and the parameter fields
always hold the assigned dictionary values afterwards — also when it
raises, because all `updateValue` assignments precede the validation. -/
theorem set_error_iff_and_assigns (p : Parameters) (d : Dict) :
    (Parameters_set p d).params = set_assign p d ∧
      ((Parameters_set p d).err ≠ none ↔
        ((set_assign p d).C_ ≤ 0 ∨ (set_assign p d).Tau_ ≤ 0 ∨
          (set_assign p d).Ti_ ≤ 0 ∨ (set_assign p d).TauR_ < 0)) := by
  simp only [Parameters_set]
  split_ifs with h1 h2 h3 h4 <;> exact ⟨rfl, by simp_all⟩

/-- C3 counterexample: a `set` call with `C_m = -1` raises the validation
error *and* leaves `C_` changed from 1 to -1 — the failing call mutates the
parameter fields. -/
theorem set_mutates_on_error :
    (Parameters_set pDefault
        (Dict.mk none none none none none (some (-1)) none none none none none)).err =
          some BadProperty.capacitance ∧
      (Parameters_set pDefault
        (Dict.mk none none none none none (some (-1)) none none none none none)).params.C_ ≠
          pDefault.C_ := by
  constructor
  · norm_num [Parameters_set, set_assign, pDefault]
  · norm_num [Parameters_set, set_assign, pDefault]

/-- C10: `get` reports `V_th`, `V_reset`, `V_min` shifted by `+U0_` while
`set` stores the dictionary values for those keys directly into the
relative fields; for every valid parameter record with `U0_ = 0` the
round-trip `set (get p)` therefore restores every field and raises no
error. -/
theorem get_set_roundtrip_U0_zero (p : Parameters) (h1 : 0 < p.C_) (h2 : 0 < p.Tau_)
    (h3 : 0 < p.Ti_) (h4 : 0 ≤ p.TauR_) (h5 : p.U0_ = 0) :
    (Parameters_set p (Parameters_get p)).params = p ∧
      (Parameters_set p (Parameters_get p)).err = none := by
  have hassign : set_assign p (Parameters_get p) = p := by
    ext <;> simp [set_assign, Parameters_get, h5]
  simp only [Parameters_set, hassign]
  rw [if_neg (not_le.mpr h1), if_neg (not_le.mpr h2), if_neg (not_le.mpr h3),
    if_neg (not_lt.mpr h4)]
  exact ⟨rfl, rfl⟩

/-- Witness for `get_set_roundtrip_U0_zero`: the default parameter record
(which has `U0_ = 0`). -/
theorem get_set_roundtrip_U0_zero_witness :
    (0 < pDefault.C_ ∧ 0 < pDefault.Tau_ ∧ 0 < pDefault.Ti_ ∧ 0 ≤ pDefault.TauR_ ∧
        pDefault.U0_ = 0) ∧
      ((Parameters_set pDefault (Parameters_get pDefault)).params = pDefault ∧
        (Parameters_set pDefault (Parameters_get pDefault)).err = none) :=
  ⟨⟨by norm_num [pDefault], by norm_num [pDefault], by norm_num [pDefault],
      by norm_num [pDefault], by norm_num [pDefault]⟩,
    get_set_roundtrip_U0_zero pDefault (by norm_num [pDefault]) (by norm_num [pDefault])
      (by norm_num [pDefault]) (by norm_num [pDefault]) (by norm_num [pDefault])⟩

end IafFreqSensor
